import Mathlib

/-!
# BlogAPI: the post controller and its routes

A shallow embedding of `src/controllers/postController.js` and
`src/routes/posts.js`.

* A handler `async (req, res) => ...` becomes a function from the request and
  the current collection state to the response it sends and the collection
  state it leaves behind.
* The `Post` collection is a list of documents; the `User` collection is only
  read (by `populate`).
* Numbers are exact integers (JavaScript doubles are exact on integers below
  2^53; larger values are outside the model).
* Request parameters `:id` are well-formed object ids; the cast of a malformed
  id string is done by the schema layer, which is not part of the sources.
-/

namespace BlogAPI

/-! ## JavaScript values used by the handlers -/

/-- White space as matched by the regular expression class `\s` and skipped by
`parseInt`: the `WhiteSpace` and `LineTerminator` productions. -/
def isJsSpace (c : Char) : Bool :=
  let n := c.toNat
  n == 0x09 || n == 0x0A || n == 0x0B || n == 0x0C || n == 0x0D || n == 0x20 ||
  n == 0xA0 || n == 0x1680 || (0x2000 ≤ n && n ≤ 0x200A) || n == 0x2028 ||
  n == 0x2029 || n == 0x202F || n == 0x205F || n == 0x3000 || n == 0xFEFF

/-- Value of a character as a digit in the given radix (10 or 16), if it is one. -/
def digitValue (radix : Nat) (c : Char) : Option Nat :=
  let n := c.toNat
  if 48 ≤ n ∧ n ≤ 57 then some (n - 48)
  else if radix = 16 ∧ 97 ≤ n ∧ n ≤ 102 then some (n - 87)
  else if radix = 16 ∧ 65 ≤ n ∧ n ≤ 70 then some (n - 55)
  else none

/-- Reads the longest run of digits at the front of the input; the accumulator
holds the value read so far and whether a digit has been seen. -/
def readDigits (radix : Nat) : List Char → Nat → Bool → Option Nat
  | [], acc, seen => if seen then some acc else none
  | c :: cs, acc, seen =>
    match digitValue radix c with
    | some d => readDigits radix cs (acc * radix + d) true
    | none => if seen then some acc else none

/-- The global `parseInt(string)` called without a radix: leading white space is
skipped, an optional sign is read, a `0x`/`0X` mark selects radix 16, and the
longest run of digits is converted. `none` stands for `NaN`. -/
def parseInt (s : String) : Option Int :=
  let cs := s.data.dropWhile isJsSpace
  let neg := match cs with
    | '-' :: _ => true
    | _ => false
  let cs := match cs with
    | '-' :: r => r
    | '+' :: r => r
    | r => r
  let mag := match cs with
    | '0' :: 'x' :: r => readDigits 16 r 0 false
    | '0' :: 'X' :: r => readDigits 16 r 0 false
    | r => readDigits 10 r 0 false
  match mag with
  | none => none
  | some m => some (if neg then -(m : Int) else (m : Int))

/-- A query-string parameter converted to a string for `parseInt`: an absent
parameter is `undefined`. -/
def queryString : Option String → String
  | none => "undefined"
  | some s => s

/-- The expression `n || d` on numbers: `NaN` and `0` are falsy. -/
def numOr (n : Option Int) (d : Int) : Int :=
  match n with
  | none => d
  | some v => if v = 0 then d else v

/-- The expression `s || d` on strings: `undefined` and the empty string are falsy. -/
def strOr (s : Option String) (d : String) : String :=
  match s with
  | none => d
  | some v => if v = "" then d else v

/-- The expression `Math.ceil(a / b)` on integers, for a non-zero divisor. -/
def ceilDiv (a b : Int) : Int := -(Int.fdiv (-a) b)

/-! ## Data model -/

/-- An object id; `toString` gives its hexadecimal text. -/
structure ObjectId where
  hex : String
deriving DecidableEq, Repr

/-- The method `toString()` of an object id. -/
def ObjectId.toString (i : ObjectId) : String := i.hex

/-- A user document, as far as the post controller reads it. -/
structure User where
  _id : ObjectId
  username : String
  email : String
deriving DecidableEq, Repr

/-- Modelled from the spec: the `Post` schema (`models/Post`) is not among the
sources. A post has an id, a title, a content, an author reference, a copy of
the author name, and the two timestamps. -/
structure Post where
  _id : ObjectId
  title : String
  content : String
  author : ObjectId
  authorName : String
  createdAt : Nat
  updatedAt : Nat
deriving DecidableEq, Repr

/-- The author of a populated post: the selected fields `username email`. -/
structure AuthorView where
  _id : ObjectId
  username : String
  email : String
deriving DecidableEq, Repr

/-- A post after `populate('author', 'username email')`; the author is `null`
when the referenced user does not exist. -/
structure PopulatedPost where
  _id : ObjectId
  title : String
  content : String
  author : Option AuthorView
  authorName : String
  createdAt : Nat
  updatedAt : Nat
deriving DecidableEq, Repr

/-- The two collections the controller touches. -/
structure Store where
  posts : List Post
  users : List User
deriving DecidableEq, Repr

/-! ## Requests and responses -/

/-- A field error reported by the body validators. -/
structure ValidationError where
  path : String
  msg : String
  value : String
deriving DecidableEq, Repr

/-- The body of a request: each field may be absent. -/
structure Body where
  title : Option String
  content : Option String
deriving DecidableEq, Repr

/-- The query string of a request. -/
structure Query where
  page : Option String
  limit : Option String
deriving DecidableEq, Repr

/-- What a handler reads from `req`, together with what the runtime supplies
when a document is created or saved (`newId`, `now`). `id` is `req.params.id`
and `user` is set by the authentication middleware. -/
structure Req where
  id : ObjectId
  query : Query
  body : Body
  user : Option User
  newId : ObjectId
  now : Nat
deriving DecidableEq, Repr

/-- The pagination object of the list response. -/
structure Pagination where
  currentPage : Int
  totalPages : Int
  totalPosts : Nat
  hasNext : Bool
  hasPrev : Bool
deriving DecidableEq, Repr

/-- The `data` field of a success envelope. -/
inductive Data where
  | post (post : PopulatedPost)
  | list (posts : List PopulatedPost) (pagination : Pagination)
deriving DecidableEq, Repr

/-- A response: the status code and the JSON envelope; a field that is `none`
is absent from the envelope. -/
structure Response where
  status : Nat
  success : Bool
  message : Option String
  data : Option Data
  errors : Option (List ValidationError)
deriving DecidableEq, Repr

/-! ## The persistence layer, as the controller uses it -/

/-- The query `Post.findById(id)`. -/
def findById (posts : List Post) (id : ObjectId) : Option Post :=
  posts.find? (fun p => decide (p._id = id))

/-- The query `User.findById`, used by `populate`. -/
def findUser (users : List User) (id : ObjectId) : Option User :=
  users.find? (fun u => decide (u._id = id))

/-- The step `populate('author', 'username email')` on one post. -/
def populate (users : List User) (p : Post) : PopulatedPost :=
  { _id := p._id, title := p.title, content := p.content,
    author := (findUser users p.author).map
      (fun u => { _id := u._id, username := u.username, email := u.email }),
    authorName := p.authorName, createdAt := p.createdAt, updatedAt := p.updatedAt }

/-- The order of `sort(createdAt: -1)`: newer posts first. -/
def newerFirst (a b : Post) : Prop := b.createdAt ≤ a.createdAt

instance : DecidableRel newerFirst := fun a b => Nat.decLe b.createdAt a.createdAt

instance : IsTotal Post newerFirst := ⟨fun a b => Nat.le_total b.createdAt a.createdAt⟩

instance : IsTrans Post newerFirst := ⟨fun _ _ _ hab hbc => Nat.le_trans hbc hab⟩

/-- The documents of the collection as `sort(createdAt: -1)` returns them. -/
def sortByCreatedAtDesc (posts : List Post) : List Post :=
  posts.insertionSort newerFirst

/-- The cursor option `limit(n)`: `0` is no limit and a negative number counts
by its absolute value. -/
def applyLimit (limit : Int) (posts : List Post) : List Post :=
  if limit = 0 then posts else posts.take limit.natAbs

/-- The query `Post.find().populate(..).sort(createdAt: -1).skip(skip).limit(limit)`;
the database rejects a negative skip. -/
def findPage (store : Store) (skip limit : Int) : Except String (List PopulatedPost) :=
  if skip < 0 then .error "Skip value must be non-negative"
  else .ok ((applyLimit limit ((sortByCreatedAtDesc store.posts).drop skip.toNat)).map
    (populate store.users))

/-- The query `Post.countDocuments()`. -/
def countDocuments (store : Store) : Nat := store.posts.length

/-- Saving a new document: it is appended to the collection; an id that is
already present is a duplicate-key error. -/
def insertDoc (posts : List Post) (d : Post) : Except String (List Post) :=
  match findById posts d._id with
  | some _ => .error "duplicate key"
  | none => .ok (posts ++ [d])

/-- Saving a loaded document: the stored document with its id is replaced. -/
def saveDoc : List Post → Post → List Post
  | [], _ => []
  | p :: ps, d => if p._id = d._id then d :: ps else p :: saveDoc ps d

/-- The query `Post.findByIdAndDelete(id)`: the document with this id is removed. -/
def findByIdAndDelete (posts : List Post) (id : ObjectId) : List Post :=
  posts.eraseP (fun p => decide (p._id = id))

/-! ## Envelopes -/

/-- The 500 envelope sent from a `catch` block. -/
def internalError (msg : String) : Response :=
  { status := 500, success := false, message := some msg, data := none, errors := none }

/-- The 400 envelope with the field errors. -/
def validationFailed (errs : List ValidationError) : Response :=
  { status := 400, success := false, message := some "Validation failed",
    data := none, errors := some errs }

/-- The 404 envelope. -/
def postNotFound : Response :=
  { status := 404, success := false, message := some "Post not found",
    data := none, errors := none }

/-- A 403 envelope. -/
def notAuthorized (msg : String) : Response :=
  { status := 403, success := false, message := some msg, data := none, errors := none }

/-! ## The validation rules of `routes/posts.js` -/

/-- The string a body validator works on: an absent field counts as the empty
string. -/
def fieldString : Option String → String
  | none => ""
  | some s => s

/-- The sanitizer `trim()`: white space is removed from both ends. -/
def trim (s : String) : String :=
  ⟨((s.data.dropWhile isJsSpace).reverse.dropWhile isJsSpace).reverse⟩

/-- A variation selector `U+FE0E` or `U+FE0F`, which the length validator does
not count. -/
def isVariationSelector (c : Char) : Bool :=
  c.toNat == 0xFE0E || c.toNat == 0xFE0F

/-- The length that the validator `isLength` measures: the string length minus
the number of surrogate pairs (that is, the number of code points) minus the
number of variation selectors. -/
def validatorLength (s : String) : Nat :=
  s.length - (s.data.filter isVariationSelector).length

/-- The validator `isLength(min, max)`. -/
def isLength (min max : Nat) (s : String) : Bool :=
  decide (min ≤ validatorLength s) && decide (validatorLength s ≤ max)

/-- One chain `body(path).trim().isLength(min, max).withMessage(msg)`: the
sanitized value and the error, if the length check fails. -/
def checkField (path msg : String) (min max : Nat) (v : Option String) :
    String × List ValidationError :=
  let s := trim (fieldString v)
  (s, if isLength min max s then [] else [{ path := path, msg := msg, value := s }])

/-- The middleware list `postValidation`: both fields are trimmed in place, and
the errors of both chains are what `validationResult(req)` returns afterwards. -/
def postValidation (req : Req) : Req × List ValidationError :=
  let t := checkField "title" "Title must be between 1 and 200 characters" 1 200 req.body.title
  let c := checkField "content" "Content must be between 1 and 5000 characters" 1 5000
    req.body.content
  ({ req with body := { title := some t.1, content := some c.1 } }, t.2 ++ c.2)

/-! ## The handlers of `controllers/postController.js` -/

/-- The page number `parseInt(req.query.page) || 1`. -/
def pageOf (q : Query) : Int := numOr (parseInt (queryString q.page)) 1

/-- The page size `parseInt(req.query.limit) || 10`. -/
def limitOf (q : Query) : Int := numOr (parseInt (queryString q.limit)) 10

/-- The handler `getAllPosts`. -/
def getAllPosts (store : Store) (req : Req) : Response × Store :=
  let page := pageOf req.query
  let limit := limitOf req.query
  let skip := (page - 1) * limit
  match findPage store skip limit with
  | .error _ => (internalError "Internal server error while fetching posts", store)
  | .ok posts =>
    let total := countDocuments store
    ({ status := 200, success := true, message := none,
       data := some (.list posts
         { currentPage := page,
           totalPages := ceilDiv total limit,
           totalPosts := total,
           hasNext := decide (page < ceilDiv total limit),
           hasPrev := decide (page > 1) }),
       errors := none }, store)

/-- The handler `getPostById`. -/
def getPostById (store : Store) (req : Req) : Response × Store :=
  match findById store.posts req.id with
  | none => (postNotFound, store)
  | some post =>
    ({ status := 200, success := true, message := none,
       data := some (.post (populate store.users post)), errors := none }, store)

/-- The handler `createPost`; `errors` is the value of `validationResult(req)`.
A request without a user, a body without a title or content text, and a failed
save all end in the `catch` block. -/
def createPost (store : Store) (req : Req) (errors : List ValidationError) :
    Response × Store :=
  if !errors.isEmpty then (validationFailed errors, store)
  else
    match req.body.title, req.body.content, req.user with
    | some title, some content, some user =>
      let post : Post :=
        { _id := req.newId, title := title, content := content, author := user._id,
          authorName := user.username, createdAt := req.now, updatedAt := req.now }
      match insertDoc store.posts post with
      | .error _ => (internalError "Internal server error while creating post", store)
      | .ok posts =>
        ({ status := 201, success := true, message := some "Post created successfully",
           data := some (.post (populate store.users post)), errors := none },
         { store with posts := posts })
    | _, _, _ => (internalError "Internal server error while creating post", store)

/-- The handler `updatePost`; `errors` is the value of `validationResult(req)`. -/
def updatePost (store : Store) (req : Req) (errors : List ValidationError) :
    Response × Store :=
  if !errors.isEmpty then (validationFailed errors, store)
  else
    match findById store.posts req.id with
    | none => (postNotFound, store)
    | some post =>
      match req.user with
      | none => (internalError "Internal server error while updating post", store)
      | some user =>
        if post.author.toString ≠ user._id.toString then
          (notAuthorized "Not authorized to update this post", store)
        else
          let post : Post :=
            { post with title := strOr req.body.title post.title,
                        content := strOr req.body.content post.content,
                        updatedAt := req.now }
          ({ status := 200, success := true, message := some "Post updated successfully",
             data := some (.post (populate store.users post)), errors := none },
           { store with posts := saveDoc store.posts post })

/-- The handler `deletePost`. -/
def deletePost (store : Store) (req : Req) : Response × Store :=
  match findById store.posts req.id with
  | none => (postNotFound, store)
  | some post =>
    match req.user with
    | none => (internalError "Internal server error while deleting post", store)
    | some user =>
      if post.author.toString ≠ user._id.toString then
        (notAuthorized "Not authorized to delete this post", store)
      else
        ({ status := 200, success := true, message := some "Post deleted successfully",
           data := none, errors := none },
         { store with posts := findByIdAndDelete store.posts req.id })

/-! ## The routes of `routes/posts.js` (after `auth`) -/

/-- The route `POST /`: `postValidation`, then `createPost`. -/
def routePost (store : Store) (req : Req) : Response × Store :=
  createPost store (postValidation req).1 (postValidation req).2

/-- The route `PUT /:id`: `postValidation`, then `updatePost`. -/
def routePut (store : Store) (req : Req) : Response × Store :=
  updatePost store (postValidation req).1 (postValidation req).2

/-- The route `DELETE /:id`: `deletePost` alone. -/
def routeDelete (store : Store) (req : Req) : Response × Store :=
  deletePost store req

/-! ## Stores and requests used as examples -/

/-- Ids are unique in the collection. -/
def UniqueIds (store : Store) : Prop := (store.posts.map (fun p => p._id)).Nodup

instance (store : Store) : Decidable (UniqueIds store) :=
  inferInstanceAs (Decidable (store.posts.map (fun (p : Post) => p._id)).Nodup)

/-- The bounds of the data model with characters counted as the validator
counts them: a title of 1 to 200 and a content of 1 to 5000. -/
def WithinBounds (p : Post) : Prop :=
  1 ≤ validatorLength p.title ∧ validatorLength p.title ≤ 200 ∧
  1 ≤ validatorLength p.content ∧ validatorLength p.content ≤ 5000

instance (p : Post) : Decidable (WithinBounds p) :=
  inferInstanceAs (Decidable (1 ≤ validatorLength p.title ∧ validatorLength p.title ≤ 200 ∧
    1 ≤ validatorLength p.content ∧ validatorLength p.content ≤ 5000))

/-- The bounds of the data model with every code point counted as a character:
a title of 1 to 200 and a content of 1 to 5000. -/
def WithinCodePoints (p : Post) : Prop :=
  1 ≤ p.title.length ∧ p.title.length ≤ 200 ∧ 1 ≤ p.content.length ∧ p.content.length ≤ 5000

instance (p : Post) : Decidable (WithinCodePoints p) :=
  inferInstanceAs (Decidable (1 ≤ p.title.length ∧ p.title.length ≤ 200 ∧
    1 ≤ p.content.length ∧ p.content.length ≤ 5000))

/-- The posts of a list response. -/
def Response.posts? (r : Response) : Option (List PopulatedPost) :=
  match r.data with
  | some (.list posts _) => some posts
  | _ => none

/-- The pagination object of a list response. -/
def Response.pagination? (r : Response) : Option Pagination :=
  match r.data with
  | some (.list _ pg) => some pg
  | _ => none

/-- The collection after a sequence of `PUT /:id` requests, handled one after
the other. -/
def putAll (store : Store) : List Req → Store
  | [] => store
  | r :: rs => putAll (routePut store r).2 rs

/-- Two users. -/
def alice : User := { _id := ⟨"a1"⟩, username := "alice", email := "alice@example.com" }

/-- The second user. -/
def bob : User := { _id := ⟨"b2"⟩, username := "bob", email := "bob@example.com" }

/-- A post written by `alice`. -/
def alicePost : Post :=
  { _id := ⟨"p1"⟩, title := "Hello", content := "First post", author := alice._id,
    authorName := "alice", createdAt := 10, updatedAt := 10 }

/-- A post written by `bob`. -/
def bobPost : Post :=
  { _id := ⟨"p2"⟩, title := "Notes", content := "Second post", author := bob._id,
    authorName := "bob", createdAt := 20, updatedAt := 20 }

/-- A store with the two posts. -/
def store2 : Store := { posts := [alicePost, bobPost], users := [alice, bob] }

/-- A request on the given id with the given body and user. -/
def mkReq (id : ObjectId) (title content : Option String) (user : Option User) : Req :=
  { id := id, query := { page := none, limit := none },
    body := { title := title, content := content }, user := user,
    newId := ⟨"p9"⟩, now := 99 }

/-- A list request with the given query parameters. -/
def listReq (page limit : Option String) : Req :=
  { id := ⟨""⟩, query := { page := page, limit := limit },
    body := { title := none, content := none }, user := none, newId := ⟨"p9"⟩, now := 99 }

/-- A title of 200 letters followed by the variation selector `U+FE0F`: 201
code points. -/
def selectorTitle : String := String.mk (List.replicate 200 'a' ++ [Char.ofNat 0xFE0F])

/-- A store of 25 posts by `alice`, created at times 0 to 24. -/
def store25 : Store :=
  { posts := (List.range 25).map (fun i =>
      { _id := ⟨String.mk [Char.ofNat (65 + i)]⟩, title := "T", content := "C",
        author := alice._id, authorName := "alice", createdAt := i, updatedAt := i }),
    users := [alice] }

end BlogAPI
namespace BlogAPI

/-! ## Lemmas on the persistence layer -/

theorem findById_some {posts : List Post} {id : ObjectId} {p : Post}
    (h : findById posts id = some p) : p ∈ posts ∧ p._id = id := by
  unfold findById at h
  exact ⟨List.mem_of_find?_eq_some h, by simpa using List.find?_some h⟩

theorem findById_none {posts : List Post} {id : ObjectId}
    (h : findById posts id = none) : ∀ p ∈ posts, p._id ≠ id := by
  unfold findById at h
  intro p hp
  simpa using (List.find?_eq_none.mp h) p hp

theorem findById_cons (p : Post) (ps : List Post) (id : ObjectId) :
    findById (p :: ps) id = if p._id = id then some p else findById ps id := by
  unfold findById
  by_cases h : p._id = id <;> simp [List.find?_cons, h]

theorem findById_of_mem {posts : List Post} {p : Post}
    (hu : (posts.map (fun q => q._id)).Nodup) (hp : p ∈ posts) :
    findById posts p._id = some p := by
  induction posts with
  | nil => cases hp
  | cons q qs ih =>
    rw [findById_cons]
    simp only [List.map_cons, List.nodup_cons, List.mem_map, not_exists, not_and] at hu
    rcases List.mem_cons.mp hp with rfl | hmem
    · simp
    · have hne : q._id ≠ p._id := fun e => hu.1 p hmem e.symm
      rw [if_neg hne]
      exact ih hu.2 hmem

theorem findById_saveDoc (posts : List Post) (d : Post) (id : ObjectId) :
    findById (saveDoc posts d) id =
      if id = d._id then (findById posts id).map (fun _ => d) else findById posts id := by
  induction posts with
  | nil => simp [saveDoc, findById]
  | cons q qs ih =>
    by_cases hq : q._id = d._id
    · by_cases hid : id = d._id
      · subst hid
        simp [saveDoc, hq, findById_cons]
      · have hne : ¬ q._id = id := fun e => hid (e ▸ hq)
        have hne' : ¬ d._id = id := fun e => hid e.symm
        simp [saveDoc, hq, findById_cons, hid, hne, hne']
    · by_cases hqi : q._id = id
      · have hid : ¬ id = d._id := fun e => hq (hqi.trans e)
        simp [saveDoc, hq, findById_cons, hqi, hid]
      · simp [saveDoc, hq, findById_cons, hqi, ih]

theorem mem_saveDoc {posts : List Post} {d q : Post} (h : q ∈ saveDoc posts d) :
    q ∈ posts ∨ q = d := by
  induction posts with
  | nil => simp [saveDoc] at h
  | cons x xs ih =>
    by_cases hx : x._id = d._id
    · simp only [saveDoc, hx, if_true, List.mem_cons] at h
      rcases h with h | h
      · exact Or.inr h
      · exact Or.inl (List.mem_cons_of_mem _ h)
    · simp only [saveDoc, hx, if_false, List.mem_cons] at h
      rcases h with h | h
      · exact Or.inl (h ▸ List.mem_cons_self _ _)
      · rcases ih h with h | h
        · exact Or.inl (List.mem_cons_of_mem _ h)
        · exact Or.inr h

theorem findById_delete_self {posts : List Post} (id : ObjectId)
    (hu : (posts.map (fun q => q._id)).Nodup) :
    findById (findByIdAndDelete posts id) id = none := by
  induction posts with
  | nil => simp [findByIdAndDelete, findById]
  | cons q qs ih =>
    simp only [List.map_cons, List.nodup_cons, List.mem_map, not_exists, not_and] at hu
    by_cases hq : q._id = id
    · have : findByIdAndDelete (q :: qs) id = qs := by
        simp [findByIdAndDelete, List.eraseP_cons, hq]
      rw [this]
      unfold findById
      rw [List.find?_eq_none]
      intro x hx
      have := hu.1 x hx
      simpa [hq] using fun e : x._id = id => this (e.trans hq.symm)
    · have : findByIdAndDelete (q :: qs) id = q :: findByIdAndDelete qs id := by
        simp [findByIdAndDelete, List.eraseP_cons, hq]
      rw [this, findById_cons, if_neg hq]
      exact ih hu.2

theorem findById_delete_other (posts : List Post) {id id' : ObjectId} (hne : id' ≠ id) :
    findById (findByIdAndDelete posts id) id' = findById posts id' := by
  induction posts with
  | nil => simp [findByIdAndDelete, findById]
  | cons q qs ih =>
    by_cases hq : q._id = id
    · have : findByIdAndDelete (q :: qs) id = qs := by
        simp [findByIdAndDelete, List.eraseP_cons, hq]
      have hq' : ¬ q._id = id' := fun e => hne (e.symm.trans hq)
      rw [this, findById_cons, if_neg hq']
    · have : findByIdAndDelete (q :: qs) id = q :: findByIdAndDelete qs id := by
        simp [findByIdAndDelete, List.eraseP_cons, hq]
      rw [this, findById_cons, findById_cons, ih]

theorem mem_delete_of_ne {posts : List Post} {id : ObjectId} {q : Post}
    (hq : q ∈ posts) (hne : q._id ≠ id) : q ∈ findByIdAndDelete posts id := by
  unfold findByIdAndDelete
  exact (List.mem_eraseP_of_neg (by simpa using hne)).mpr hq

theorem delete_subset (posts : List Post) (id : ObjectId) :
    ∀ q ∈ findByIdAndDelete posts id, q ∈ posts := by
  intro q hq
  exact List.mem_of_mem_eraseP hq

end BlogAPI
namespace BlogAPI

/-! ## Lemmas on the handlers -/

theorem postValidation_id (req : Req) : (postValidation req).1.id = req.id := rfl

theorem postValidation_user (req : Req) : (postValidation req).1.user = req.user := rfl

theorem updatePost_invalid (store : Store) (req : Req) {errors : List ValidationError}
    (h : errors ≠ []) : updatePost store req errors = (validationFailed errors, store) := by
  cases errors with
  | nil => exact absurd rfl h
  | cons e es => simp [updatePost]

theorem updatePost_missing (store : Store) (req : Req)
    (h : findById store.posts req.id = none) :
    updatePost store req [] = (postNotFound, store) := by
  simp [updatePost, h]

theorem deletePost_missing (store : Store) (req : Req)
    (h : findById store.posts req.id = none) :
    deletePost store req = (postNotFound, store) := by
  simp [deletePost, h]

theorem updatePost_forbidden (store : Store) (req : Req) {post : Post} {user : User}
    (h : findById store.posts req.id = some post) (hu : req.user = some user)
    (hne : user._id ≠ post.author) :
    updatePost store req [] = (notAuthorized "Not authorized to update this post", store) := by
  have hs : post.author.toString ≠ user._id.toString := by
    intro e
    apply hne
    cases hp : post.author
    cases hq : user._id
    simp [ObjectId.toString, hp, hq] at e
    simp [e]
  simp [updatePost, h, hu, hs]

theorem deletePost_forbidden (store : Store) (req : Req) {post : Post} {user : User}
    (h : findById store.posts req.id = some post) (hu : req.user = some user)
    (hne : user._id ≠ post.author) :
    deletePost store req = (notAuthorized "Not authorized to delete this post", store) := by
  have hs : post.author.toString ≠ user._id.toString := by
    intro e
    apply hne
    cases hp : post.author
    cases hq : user._id
    simp [ObjectId.toString, hp, hq] at e
    simp [e]
  simp [deletePost, h, hu, hs]

theorem updatePost_status_403 {store : Store} {req : Req} {errors : List ValidationError}
    (h : (updatePost store req errors).1.status = 403) :
    ∃ post user, findById store.posts req.id = some post ∧ req.user = some user ∧
      post.author ≠ user._id := by
  unfold updatePost at h
  split at h
  · simp [validationFailed] at h
  · split at h
    · simp [postNotFound] at h
    · rename_i post hfind
      split at h
      · simp [internalError] at h
      · rename_i user huser
        split at h
        · rename_i hs
          exact ⟨post, user, hfind, huser, fun e => hs (by rw [e])⟩
        · simp at h

theorem deletePost_status_403 {store : Store} {req : Req}
    (h : (deletePost store req).1.status = 403) :
    ∃ post user, findById store.posts req.id = some post ∧ req.user = some user ∧
      post.author ≠ user._id := by
  unfold deletePost at h
  split at h
  · simp [postNotFound] at h
  · rename_i post hfind
    split at h
    · simp [internalError] at h
    · rename_i user huser
      split at h
      · rename_i hs
        exact ⟨post, user, hfind, huser, fun e => hs (by rw [e])⟩
      · simp at h

/-- C1: existence takes precedence over authorization. When the id names no
post, `DELETE /:id` answers 404 `Post not found`, `PUT /:id` answers 404
`Post not found` for a body that passes `postValidation`, and neither answers
403, whoever the acting user is. A 403 from either route comes only with a post
of that id whose author differs from the acting user. -/
theorem missing_post_precedes_authorization (store : Store) (req : Req) :
    (findById store.posts req.id = none →
      routeDelete store req = (postNotFound, store) ∧
      ((postValidation req).2 = [] → routePut store req = (postNotFound, store)) ∧
      (routeDelete store req).1.status ≠ 403 ∧ (routePut store req).1.status ≠ 403) ∧
    ((routeDelete store req).1.status = 403 ∨ (routePut store req).1.status = 403 →
      ∃ post user, findById store.posts req.id = some post ∧ req.user = some user ∧
        post.author ≠ user._id) := by
  have h403 : (routeDelete store req).1.status = 403 ∨ (routePut store req).1.status = 403 →
      ∃ post user, findById store.posts req.id = some post ∧ req.user = some user ∧
        post.author ≠ user._id := by
    rintro (h | h)
    · exact deletePost_status_403 h
    · exact @updatePost_status_403 store (postValidation req).1 (postValidation req).2 h
  refine ⟨fun hmiss => ⟨deletePost_missing store req hmiss, ?_, ?_, ?_⟩, h403⟩
  · intro hv
    unfold routePut
    rw [hv]
    exact updatePost_missing store _ hmiss
  · intro h
    obtain ⟨post, _, hf, _⟩ := h403 (Or.inl h)
    rw [hmiss] at hf
    cases hf
  · intro h
    obtain ⟨post, _, hf, _⟩ := h403 (Or.inr h)
    rw [hmiss] at hf
    cases hf

/-- C1, at an id that names no post of `store2`, with `bob` acting. -/
theorem missing_post_precedes_authorization_witness :
    routeDelete store2 (mkReq ⟨"p7"⟩ (some "T") (some "C") (some bob)) = (postNotFound, store2) ∧
    routePut store2 (mkReq ⟨"p7"⟩ (some "T") (some "C") (some bob)) = (postNotFound, store2) ∧
    (∃ post user, findById store2.posts (⟨"p1"⟩ : ObjectId) = some post ∧
      some bob = some user ∧ post.author ≠ user._id) :=
  ⟨((missing_post_precedes_authorization store2
      (mkReq ⟨"p7"⟩ (some "T") (some "C") (some bob))).1 (by decide)).1,
   ((missing_post_precedes_authorization store2
      (mkReq ⟨"p7"⟩ (some "T") (some "C") (some bob))).1 (by decide)).2.1 (by decide),
   (missing_post_precedes_authorization store2
      (mkReq ⟨"p1"⟩ (some "T") (some "C") (some bob))).2 (Or.inl (by decide))⟩

end BlogAPI
namespace BlogAPI

/-- C2: a user who is not the author of a stored post `P` gets 403 from
`PUT /:id` (for a body that passes `postValidation`) with the message
`Not authorized to update this post`, and 403 from `DELETE /:id` with the message
`Not authorized to delete this post`; either way the store is the one before
the request, so `P` is still found under its id and all posts are as they were. -/
theorem non_author_forbidden_store_unchanged (store : Store) (req : Req) (user : User)
    (P : Post) (huniq : UniqueIds store) (hP : P ∈ store.posts) (hid : req.id = P._id)
    (hu : req.user = some user) (hne : user._id ≠ P.author) :
    ((postValidation req).2 = [] →
      routePut store req = (notAuthorized "Not authorized to update this post", store) ∧
      findById (routePut store req).2.posts P._id = some P) ∧
    routeDelete store req = (notAuthorized "Not authorized to delete this post", store) ∧
    findById (routeDelete store req).2.posts P._id = some P := by
  have hfind : findById store.posts req.id = some P := by
    rw [hid]
    exact findById_of_mem huniq hP
  have hdel := deletePost_forbidden store req hfind hu hne
  have hput : (postValidation req).2 = [] →
      routePut store req = (notAuthorized "Not authorized to update this post", store) := by
    intro hv
    unfold routePut
    rw [hv]
    exact updatePost_forbidden store (postValidation req).1 hfind hu hne
  refine ⟨fun hv => ⟨hput hv, ?_⟩, hdel, ?_⟩
  · rw [hput hv, ← hid]
    exact hfind
  · unfold routeDelete
    rw [hdel, ← hid]
    exact hfind

/-- C2, with `bob` acting on the post of `alice` in `store2`. -/
theorem non_author_forbidden_store_unchanged_witness :
    routePut store2 (mkReq ⟨"p1"⟩ (some "Mine") (some "now") (some bob)) =
      (notAuthorized "Not authorized to update this post", store2) ∧
    routeDelete store2 (mkReq ⟨"p1"⟩ (some "Mine") (some "now") (some bob)) =
      (notAuthorized "Not authorized to delete this post", store2) :=
  have h := non_author_forbidden_store_unchanged store2
    (mkReq ⟨"p1"⟩ (some "Mine") (some "now") (some bob)) bob alicePost
    (by decide) (by decide) rfl rfl (by decide)
  ⟨(h.1 (by decide)).1, h.2.1⟩

/-- C7, as the code has it: when the id names no post, `GET /:id` and
`DELETE /:id` answer with the 404 envelope `Post not found`; `PUT /:id` answers
with that envelope when the body passes `postValidation`, and with 400
`Validation failed` and the field errors when it does not. The store is
unchanged in every case. -/
theorem missing_post_responses (store : Store) (req : Req)
    (hmiss : findById store.posts req.id = none) :
    getPostById store req = (postNotFound, store) ∧
    routeDelete store req = (postNotFound, store) ∧
    ((postValidation req).2 = [] → routePut store req = (postNotFound, store)) ∧
    ((postValidation req).2 ≠ [] →
      routePut store req = (validationFailed (postValidation req).2, store)) ∧
    postNotFound = { status := 404, success := false, message := some "Post not found",
                     data := none, errors := none } := by
  refine ⟨by simp [getPostById, hmiss], deletePost_missing store req hmiss, ?_, ?_, rfl⟩
  · intro hv
    unfold routePut
    rw [hv]
    exact updatePost_missing store _ hmiss
  · intro hv
    exact updatePost_invalid store _ hv

/-- C7 amended, at an id that names no post of `store2`. -/
theorem missing_post_responses_witness :
    getPostById store2 (mkReq ⟨"p7"⟩ (some "T") none (some bob)) = (postNotFound, store2) ∧
    routeDelete store2 (mkReq ⟨"p7"⟩ (some "T") none (some bob)) = (postNotFound, store2) ∧
    routePut store2 (mkReq ⟨"p7"⟩ (some "T") none (some bob)) =
      (validationFailed (postValidation (mkReq ⟨"p7"⟩ (some "T") none (some bob))).2,
       store2) :=
  have h := missing_post_responses store2 (mkReq ⟨"p7"⟩ (some "T") none (some bob))
    (by decide)
  ⟨h.1, h.2.1, h.2.2.2.1 (by decide)⟩

/-- C7 as stated fails: on the empty store, `PUT /:id` with an empty body
answers 400 `Validation failed`, not 404. -/
theorem missing_post_put_invalid_body_is_400 :
    findById ({ posts := [], users := [] } : Store).posts
      (mkReq ⟨"p7"⟩ none none (some bob)).id = none ∧
    (routePut { posts := [], users := [] } (mkReq ⟨"p7"⟩ none none (some bob))).1.status = 400 ∧
    (routePut { posts := [], users := [] } (mkReq ⟨"p7"⟩ none none (some bob))).1.message =
      some "Validation failed" ∧
    (routePut { posts := [], users := [] } (mkReq ⟨"p7"⟩ none none (some bob))).1 ≠
      postNotFound := by
  decide

theorem deletePost_author (store : Store) (req : Req) {post : Post} {user : User}
    (h : findById store.posts req.id = some post) (hu : req.user = some user)
    (he : user._id = post.author) :
    deletePost store req =
      ({ status := 200, success := true, message := some "Post deleted successfully",
         data := none, errors := none },
       { store with posts := findByIdAndDelete store.posts req.id }) := by
  simp [deletePost, h, hu, he]

/-- C10: when the author of a stored post `P` deletes it, the answer is 200 with
`success: true`, the message `Post deleted successfully` and no data field; in
the store left behind `GET /:id` on the same id answers 404 `Post not found`,
and every other post is still there, found under its id and unchanged. -/
theorem delete_removes_only_that_post (store : Store) (req : Req) (user : User) (P : Post)
    (huniq : UniqueIds store) (hP : P ∈ store.posts) (hid : req.id = P._id)
    (hu : req.user = some user) (he : user._id = P.author) :
    (routeDelete store req).1 =
      { status := 200, success := true, message := some "Post deleted successfully",
        data := none, errors := none } ∧
    (∀ req2 : Req, req2.id = req.id →
      getPostById (routeDelete store req).2 req2 = (postNotFound, (routeDelete store req).2)) ∧
    (∀ q ∈ store.posts, q._id ≠ P._id →
      q ∈ (routeDelete store req).2.posts ∧
      findById (routeDelete store req).2.posts q._id = some q) ∧
    (∀ q ∈ (routeDelete store req).2.posts, q ∈ store.posts) ∧
    (routeDelete store req).2.users = store.users := by
  have hfind : findById store.posts req.id = some P := by
    rw [hid]
    exact findById_of_mem huniq hP
  have hdel := deletePost_author store req hfind hu he
  unfold routeDelete
  rw [hdel]
  refine ⟨rfl, ?_, ?_, ?_, rfl⟩
  · intro req2 h2
    have : findById (findByIdAndDelete store.posts req.id) req2.id = none := by
      rw [h2]
      exact findById_delete_self req.id huniq
    simp [getPostById, this]
  · intro q hq hne
    refine ⟨mem_delete_of_ne hq (by rw [hid]; exact hne), ?_⟩
    show findById (findByIdAndDelete store.posts req.id) q._id = some q
    rw [findById_delete_other store.posts (by rw [hid]; exact hne)]
    exact findById_of_mem huniq hq
  · intro q hq
    exact delete_subset store.posts req.id q hq

/-- C10, with `alice` deleting her post from `store2`. -/
theorem delete_removes_only_that_post_witness :
    (routeDelete store2 (mkReq ⟨"p1"⟩ none none (some alice))).1 =
      { status := 200, success := true, message := some "Post deleted successfully",
        data := none, errors := none } ∧
    getPostById (routeDelete store2 (mkReq ⟨"p1"⟩ none none (some alice))).2
        (mkReq ⟨"p1"⟩ none none none) =
      (postNotFound, (routeDelete store2 (mkReq ⟨"p1"⟩ none none (some alice))).2) ∧
    findById (routeDelete store2 (mkReq ⟨"p1"⟩ none none (some alice))).2.posts bobPost._id =
      some bobPost :=
  have h := delete_removes_only_that_post store2 (mkReq ⟨"p1"⟩ none none (some alice))
    alice alicePost (by decide) (by decide) rfl rfl rfl
  ⟨h.1, h.2.1 (mkReq ⟨"p1"⟩ none none none) rfl,
   (h.2.2.1 bobPost (by decide) (by decide)).2⟩

end BlogAPI
namespace BlogAPI

/-! ## Pagination -/

theorem ceilDiv_eq_ceil (a b : Int) (hb : 0 < b) : ceilDiv a b = ⌈(a : ℚ) / (b : ℚ)⌉ := by
  unfold ceilDiv
  rw [Int.fdiv_eq_ediv _ (le_of_lt hb)]
  obtain ⟨n, rfl⟩ := Int.eq_ofNat_of_zero_le (le_of_lt hb)
  have h := Rat.floor_intCast_div_natCast (-a) n
  rw [← h, ← Int.ceil_neg]
  congr 1
  push_cast
  ring

theorem findPage_ok (store : Store) {skip limit : Int} (hs : 0 ≤ skip) (hl : 1 ≤ limit) :
    findPage store skip limit =
      .ok ((((sortByCreatedAtDesc store.posts).drop skip.toNat).take limit.toNat).map
        (populate store.users)) := by
  have h0 : ¬ skip < 0 := not_lt.mpr hs
  have h1 : limit ≠ 0 := by omega
  have h2 : limit.natAbs = limit.toNat := by omega
  simp [findPage, applyLimit, h0, h1, h2]

theorem skip_nonneg {page limit : Int} (hp : 1 ≤ page) (hl : 1 ≤ limit) :
    0 ≤ (page - 1) * limit :=
  mul_nonneg (by omega) (by omega)

theorem getAllPosts_ok (store : Store) (req : Req)
    (hp : 1 ≤ pageOf req.query) (hl : 1 ≤ limitOf req.query) :
    getAllPosts store req =
      ({ status := 200, success := true, message := none,
         data := some (.list
           ((((sortByCreatedAtDesc store.posts).drop
              ((pageOf req.query - 1) * limitOf req.query).toNat).take
              (limitOf req.query).toNat).map (populate store.users))
           { currentPage := pageOf req.query,
             totalPages := ceilDiv store.posts.length (limitOf req.query),
             totalPosts := store.posts.length,
             hasNext := decide (pageOf req.query < ceilDiv store.posts.length (limitOf req.query)),
             hasPrev := decide (pageOf req.query > 1) }),
         errors := none }, store) := by
  unfold getAllPosts
  simp only [findPage_ok store (skip_nonneg hp hl) hl, countDocuments]

/-- C3: for a page number and a page size that are both at least 1 and any number
`N` of stored posts, the list response is a 200 whose pagination object has
`currentPage = page`, `totalPosts = N`, `totalPages = ceil(N / limit)`,
`hasNext = (page < totalPages)` and `hasPrev = (page > 1)`. -/
theorem pagination_fields (store : Store) (req : Req)
    (hp : 1 ≤ pageOf req.query) (hl : 1 ≤ limitOf req.query) :
    (getAllPosts store req).1.status = 200 ∧
    (getAllPosts store req).1.pagination? = some
      { currentPage := pageOf req.query,
        totalPages := ⌈(store.posts.length : ℚ) / (limitOf req.query : ℚ)⌉,
        totalPosts := store.posts.length,
        hasNext := decide
          (pageOf req.query < ⌈(store.posts.length : ℚ) / (limitOf req.query : ℚ)⌉),
        hasPrev := decide (pageOf req.query > 1) } := by
  have hc := ceilDiv_eq_ceil store.posts.length (limitOf req.query) (by omega)
  rw [getAllPosts_ok store req hp hl]
  simp only [Int.cast_natCast] at hc
  simp only [Response.pagination?, hc, and_self]

/-- C3 on 25 posts with `limit=10` and `page=3`: three pages, no next page, a
previous page. -/
theorem pagination_fields_witness :
    pageOf (listReq (some "3") (some "10")).query = 3 ∧
    limitOf (listReq (some "3") (some "10")).query = 10 ∧
    store25.posts.length = 25 ∧
    (getAllPosts store25 (listReq (some "3") (some "10"))).1.pagination? = some
      { currentPage := 3, totalPages := 3, totalPosts := 25,
        hasNext := false, hasPrev := true } ∧
    (getAllPosts store25 (listReq (some "3") (some "10"))).1.pagination? = some
      { currentPage := pageOf (listReq (some "3") (some "10")).query,
        totalPages := ⌈(store25.posts.length : ℚ) /
          (limitOf (listReq (some "3") (some "10")).query : ℚ)⌉,
        totalPosts := store25.posts.length,
        hasNext := decide (pageOf (listReq (some "3") (some "10")).query <
          ⌈(store25.posts.length : ℚ) /
            (limitOf (listReq (some "3") (some "10")).query : ℚ)⌉),
        hasPrev := decide (pageOf (listReq (some "3") (some "10")).query > 1) } :=
  ⟨by decide, by decide, by decide, by decide,
   (pagination_fields store25 (listReq (some "3") (some "10")) (by decide) (by decide)).2⟩

/-- C4: for a page number and a page size that are both at least 1, the posts
of the list response are the stored posts in the order newest first (a sorted
rearrangement of the collection), without the first `skip = (page-1)*limit` and
cut after `limit` posts, each one populated; their number is
`min(limit, max(0, N - skip))`, hence at most `limit`; the store is unchanged. -/
theorem list_is_window_of_newest_first (store : Store) (req : Req)
    (hp : 1 ≤ pageOf req.query) (hl : 1 ≤ limitOf req.query) :
    ∃ sorted posts : List _,
      sorted.Perm store.posts ∧
      sorted.Pairwise (fun a b => b.createdAt ≤ a.createdAt) ∧
      (getAllPosts store req).1.status = 200 ∧
      (getAllPosts store req).1.posts? = some posts ∧
      posts = ((sorted.drop ((pageOf req.query - 1) * limitOf req.query).toNat).take
        (limitOf req.query).toNat).map (populate store.users) ∧
      (posts.length : Int) = min (limitOf req.query)
        (max 0 ((store.posts.length : Int) - (pageOf req.query - 1) * limitOf req.query)) ∧
      (posts.length : Int) ≤ limitOf req.query ∧
      (getAllPosts store req).2 = store := by
  have hlen : (sortByCreatedAtDesc store.posts).length = store.posts.length :=
    List.length_insertionSort _ _
  have hs := skip_nonneg hp hl
  refine ⟨sortByCreatedAtDesc store.posts, _, List.perm_insertionSort _ _,
    List.sorted_insertionSort newerFirst _, ?_, ?_, rfl, ?_, ?_, ?_⟩
  · rw [getAllPosts_ok store req hp hl]
  · rw [getAllPosts_ok store req hp hl]
    rfl
  · simp only [List.length_map, List.length_take, List.length_drop, hlen]
    omega
  · simp only [List.length_map, List.length_take, List.length_drop, hlen]
    omega
  · rw [getAllPosts_ok store req hp hl]

/-- C4 on 25 posts with `limit=10` and `page=3`: exactly 5 posts come back. -/
theorem list_is_window_of_newest_first_witness :
    (∃ posts, (getAllPosts store25 (listReq (some "3") (some "10"))).1.posts? = some posts ∧
      posts.length = 5) ∧
    ∃ sorted posts : List _,
      sorted.Perm store25.posts ∧
      sorted.Pairwise (fun a b => b.createdAt ≤ a.createdAt) ∧
      (getAllPosts store25 (listReq (some "3") (some "10"))).1.status = 200 ∧
      (getAllPosts store25 (listReq (some "3") (some "10"))).1.posts? = some posts ∧
      posts = ((sorted.drop ((pageOf (listReq (some "3") (some "10")).query - 1) *
          limitOf (listReq (some "3") (some "10")).query).toNat).take
        (limitOf (listReq (some "3") (some "10")).query).toNat).map (populate store25.users) ∧
      (posts.length : Int) = min (limitOf (listReq (some "3") (some "10")).query)
        (max 0 ((store25.posts.length : Int) -
          (pageOf (listReq (some "3") (some "10")).query - 1) *
            limitOf (listReq (some "3") (some "10")).query)) ∧
      (posts.length : Int) ≤ limitOf (listReq (some "3") (some "10")).query ∧
      (getAllPosts store25 (listReq (some "3") (some "10"))).2 = store25 :=
  ⟨⟨_, rfl, by decide⟩,
   list_is_window_of_newest_first store25 (listReq (some "3") (some "10"))
     (by decide) (by decide)⟩

/-- C5 fails on negative parameters: for `page=-2` and `limit=-3` the handler
uses the page number -2 and the page size -3, not the defaults; with `page=-2`
and `limit=10` the skip is negative and the answer is a 500. -/
theorem negative_page_and_limit_used_as_given :
    pageOf (listReq (some "-2") (some "-3")).query = -2 ∧
    limitOf (listReq (some "-2") (some "-3")).query = -3 ∧
    ¬ (1 ≤ pageOf (listReq (some "-2") (some "-3")).query) ∧
    ¬ (1 ≤ limitOf (listReq (some "-2") (some "-3")).query) ∧
    (getAllPosts store25 (listReq (some "-2") (some "-3"))).1.pagination? = some
      { currentPage := -2, totalPages := -8, totalPosts := 25,
        hasNext := false, hasPrev := false } ∧
    (getAllPosts store25 (listReq (some "-2") (some "10"))).1 =
      internalError "Internal server error while fetching posts" := by
  decide

end BlogAPI
namespace BlogAPI

/-! ## Validation, creation and update -/

theorem isLength_iff (min max : Nat) (s : String) :
    isLength min max s = true ↔ min ≤ validatorLength s ∧ validatorLength s ≤ max := by
  simp [isLength]

theorem validatorLength_le (s : String) : validatorLength s ≤ s.length :=
  Nat.sub_le _ _

theorem postValidation_ok_iff (req : Req) :
    (postValidation req).2 = [] ↔
      (1 ≤ validatorLength (trim (fieldString req.body.title)) ∧
        validatorLength (trim (fieldString req.body.title)) ≤ 200) ∧
      (1 ≤ validatorLength (trim (fieldString req.body.content)) ∧
        validatorLength (trim (fieldString req.body.content)) ≤ 5000) := by
  rw [← isLength_iff, ← isLength_iff]
  unfold postValidation checkField
  cases h1 : isLength 1 200 (trim (fieldString req.body.title)) <;>
    cases h2 : isLength 1 5000 (trim (fieldString req.body.content)) <;> simp [h1, h2]

theorem postValidation_body (req : Req) :
    (postValidation req).1.body =
      { title := some (trim (fieldString req.body.title)),
        content := some (trim (fieldString req.body.content)) } := rfl

theorem strOr_some_of_length {t : String} (d : String) (h : 1 ≤ validatorLength t) :
    strOr (some t) d = t := by
  have : t ≠ "" := by
    rintro rfl
    simp [validatorLength] at h
  simp [strOr, this]

theorem createPost_invalid (store : Store) (req : Req) {errors : List ValidationError}
    (h : errors ≠ []) : createPost store req errors = (validationFailed errors, store) := by
  cases errors with
  | nil => exact absurd rfl h
  | cons e es => simp [createPost]

theorem createPost_cases (store : Store) (req : Req) (errors : List ValidationError) :
    (createPost store req errors).2 = store ∧ (createPost store req errors).1.status ≠ 201 ∨
    ∃ title content user,
      errors = [] ∧ req.body.title = some title ∧ req.body.content = some content ∧
      req.user = some user ∧ findById store.posts req.newId = none ∧
      (createPost store req errors).2 =
        { store with posts := store.posts ++
            [{ _id := req.newId, title := title, content := content, author := user._id,
               authorName := user.username, createdAt := req.now, updatedAt := req.now }] } := by
  cases errors with
  | cons e es => left; simp [createPost, validationFailed]
  | nil =>
    rcases ht : req.body.title with _ | title
    · left; simp [createPost, ht, internalError]
    rcases hc : req.body.content with _ | content
    · left; simp [createPost, ht, hc, internalError]
    rcases hu : req.user with _ | user
    · left; simp [createPost, ht, hc, hu, internalError]
    rcases hf : findById store.posts req.newId with _ | q
    · right
      exact ⟨title, content, user, rfl, rfl, rfl, rfl, rfl,
        by simp [createPost, ht, hc, hu, insertDoc, hf]⟩
    · left; simp [createPost, ht, hc, hu, insertDoc, hf, internalError]

theorem findById_append_new {posts : List Post} {d : Post}
    (h : findById posts d._id = none) : findById (posts ++ [d]) d._id = some d := by
  unfold findById at *
  rw [List.find?_append, h]
  simp

theorem updatePost_author (store : Store) (req : Req) {post : Post} {user : User}
    (h : findById store.posts req.id = some post) (hu : req.user = some user)
    (he : user._id = post.author) :
    updatePost store req [] =
      ({ status := 200, success := true, message := some "Post updated successfully",
         data := some (.post (populate store.users
           { post with title := strOr req.body.title post.title,
                       content := strOr req.body.content post.content,
                       updatedAt := req.now })),
         errors := none },
       { store with
         posts := saveDoc store.posts
           ({ post with title := strOr req.body.title post.title,
                        content := strOr req.body.content post.content,
                        updatedAt := req.now } : Post) }) := by
  simp [updatePost, h, hu, he]

theorem updatePost_cases (store : Store) (req : Req) (errors : List ValidationError) :
    (updatePost store req errors).2 = store ∨
    ∃ post, errors = [] ∧ findById store.posts req.id = some post ∧
      (updatePost store req errors).2 =
        { store with
          posts := saveDoc store.posts
            ({ post with title := strOr req.body.title post.title,
                         content := strOr req.body.content post.content,
                         updatedAt := req.now } : Post) } := by
  cases errors with
  | cons e es => left; simp [updatePost]
  | nil =>
    rcases hf : findById store.posts req.id with _ | post
    · left; simp [updatePost, hf]
    rcases hu : req.user with _ | user
    · left; simp [updatePost, hf, hu]
    by_cases hs : post.author.toString ≠ user._id.toString
    · left; simp [updatePost, hf, hu, hs]
    · right
      exact ⟨post, rfl, rfl, by simp [updatePost, hf, hu, hs]⟩

theorem updatePost_keeps_author (store : Store) (req : Req) (errors : List ValidationError)
    {id : ObjectId} {p : Post} (h : findById store.posts id = some p) :
    ∃ q, findById (updatePost store req errors).2.posts id = some q ∧
      q._id = p._id ∧ q.author = p.author ∧ q.authorName = p.authorName := by
  rcases updatePost_cases store req errors with hs | ⟨post, _, hf, hs⟩
  · rw [hs]
    exact ⟨p, h, rfl, rfl, rfl⟩
  · rw [hs]
    show ∃ q, findById (saveDoc store.posts _) id = some q ∧ _
    rw [findById_saveDoc]
    by_cases hid : id = post._id
    · have hpid : post._id = req.id := (findById_some hf).2
      have hpp : p = post := by
        have h2 := h
        rw [hid, hpid, hf] at h2
        exact (Option.some.inj h2).symm
      subst hpp
      simp only [hid, if_true, h, Option.map_some']
      rw [← hid, h]
      exact ⟨_, rfl, rfl, rfl, rfl⟩
    · simp only [hid, if_false]
      exact ⟨p, h, rfl, rfl, rfl⟩

theorem putAll_keeps_author (reqs : List Req) :
    ∀ (store : Store) {id : ObjectId} {p : Post}, findById store.posts id = some p →
    ∃ q, findById (putAll store reqs).posts id = some q ∧
      q._id = p._id ∧ q.author = p.author ∧ q.authorName = p.authorName := by
  induction reqs with
  | nil =>
    intro store id p h
    exact ⟨p, h, rfl, rfl, rfl⟩
  | cons r rs ih =>
    intro store id p h
    obtain ⟨q, hq, h1, h2, h3⟩ :=
      updatePost_keeps_author store (postValidation r).1 (postValidation r).2 h
    obtain ⟨q2, hq2, k1, k2, k3⟩ := ih (routePut store r).2 hq
    exact ⟨q2, hq2, k1.trans h1, k2.trans h2, k3.trans h3⟩

end BlogAPI
namespace BlogAPI

/-- C6 at the failing input: `alice` updating her own post through `PUT /:id`
with only a title, or with an empty title, gets 400 `Validation failed` and the
post is left as it was, where the claim has 200 with the content kept. The
handler `updatePost` alone, reached with no validation errors, does the partial
update on the same request: the fallback `content || post.content` is there,
and the rules of `postValidation` on the route keep it from being reached. -/
theorem put_incomplete_body_is_rejected :
    (updatePost store2 (mkReq ⟨"p1"⟩ (some "New") none (some alice)) []).1.status = 200 ∧
    findById (updatePost store2 (mkReq ⟨"p1"⟩ (some "New") none (some alice)) []).2.posts
      ⟨"p1"⟩ = some { alicePost with title := "New", updatedAt := 99 } ∧
    (routePut store2 (mkReq ⟨"p1"⟩ (some "New") none (some alice))).1.status = 400 ∧
    (routePut store2 (mkReq ⟨"p1"⟩ (some "New") none (some alice))).1.status ≠ 200 ∧
    (routePut store2 (mkReq ⟨"p1"⟩ (some "New") none (some alice))).2 = store2 ∧
    (routePut store2 (mkReq ⟨"p1"⟩ (some "") (some "Body") (some alice))).1.status = 400 ∧
    (routePut store2 (mkReq ⟨"p1"⟩ (some "") (some "Body") (some alice))).1.message =
      some "Validation failed" ∧
    (routePut store2 (mkReq ⟨"p1"⟩ (some "") (some "Body") (some alice))).2 = store2 := by
  decide

/-- Update by the author of a stored post `P`, in the handler and through the
route. The handler `updatePost`, reached with no validation errors, answers 200 and stores `P` with
each supplied non-empty field replaced and each absent or empty field kept.
Through `PUT /:id` the rules of `postValidation` come first: a body whose title
or content is absent or empty after trimming gets 400 `Validation failed` and
the store is unchanged; a body that passes gets 200 and both fields are
replaced by the trimmed input. -/
theorem update_keeps_absent_fields_only_in_handler (store : Store) (req : Req) (user : User)
    (P : Post) (huniq : UniqueIds store) (hP : P ∈ store.posts) (hid : req.id = P._id)
    (hu : req.user = some user) (he : user._id = P.author) :
    ((updatePost store req []).1.status = 200 ∧
      (updatePost store req []).1.message = some "Post updated successfully" ∧
      ∃ q, findById (updatePost store req []).2.posts P._id = some q ∧
        (req.body.title = none ∨ req.body.title = some "" → q.title = P.title) ∧
        (∀ t, req.body.title = some t → t ≠ "" → q.title = t) ∧
        (req.body.content = none ∨ req.body.content = some "" → q.content = P.content) ∧
        (∀ c, req.body.content = some c → c ≠ "" → q.content = c) ∧
        q._id = P._id ∧ q.author = P.author ∧ q.authorName = P.authorName ∧
        q.createdAt = P.createdAt) ∧
    ((trim (fieldString req.body.title)).length = 0 ∨
        (trim (fieldString req.body.content)).length = 0 →
      (routePut store req).1.status = 400 ∧
      (routePut store req).1.message = some "Validation failed" ∧
      (routePut store req).2 = store) ∧
    ((postValidation req).2 = [] →
      (routePut store req).1.status = 200 ∧
      findById (routePut store req).2.posts P._id = some
        { P with title := trim (fieldString req.body.title),
                 content := trim (fieldString req.body.content),
                 updatedAt := req.now }) := by
  have hfind : findById store.posts req.id = some P := by
    rw [hid]
    exact findById_of_mem huniq hP
  have hfindP : findById store.posts P._id = some P := findById_of_mem huniq hP
  refine ⟨?_, ?_, ?_⟩
  · rw [updatePost_author store req hfind hu he]
    refine ⟨rfl, rfl,
      ({ P with title := strOr req.body.title P.title,
                content := strOr req.body.content P.content,
                updatedAt := req.now } : Post), ?_, ?_, ?_, ?_, ?_, rfl, rfl, rfl, rfl⟩
    · show findById (saveDoc store.posts _) P._id = some _
      rw [findById_saveDoc, if_pos rfl, hfindP]
      rfl
    · rintro (h | h) <;> simp [h, strOr]
    · intro t h ht
      simp [h, strOr, ht]
    · rintro (h | h) <;> simp [h, strOr]
    · intro c h hc
      simp [h, strOr, hc]
  · intro h
    have hv : (postValidation req).2 ≠ [] := by
      intro hok
      have := (postValidation_ok_iff req).mp hok
      have := validatorLength_le (trim (fieldString req.body.title))
      have := validatorLength_le (trim (fieldString req.body.content))
      omega
    unfold routePut
    rw [updatePost_invalid store _ hv]
    exact ⟨rfl, rfl, rfl⟩
  · intro hv
    have hb := (postValidation_ok_iff req).mp hv
    unfold routePut
    rw [hv, updatePost_author store (postValidation req).1 hfind hu he]
    refine ⟨rfl, ?_⟩
    show findById (saveDoc store.posts _) P._id = some _
    rw [findById_saveDoc, if_pos rfl, hfindP]
    simp only [Option.map_some', postValidation_body]
    rw [strOr_some_of_length _ hb.1.1, strOr_some_of_length _ hb.2.1]
    rfl

/-- Update by `alice` of her post in `store2`: the handler alone keeps the
content when only a title is given; the route rejects that body. -/
theorem update_keeps_absent_fields_only_in_handler_witness :
    (∃ q, findById (updatePost store2 (mkReq ⟨"p1"⟩ (some "New") none (some alice)) []).2.posts
        alicePost._id = some q ∧ q.title = "New" ∧ q.content = alicePost.content) ∧
    (routePut store2 (mkReq ⟨"p1"⟩ (some "New") none (some alice))).1.status = 400 ∧
    (routePut store2 (mkReq ⟨"p1"⟩ (some "New") none (some alice))).2 = store2 :=
  have h := update_keeps_absent_fields_only_in_handler store2
    (mkReq ⟨"p1"⟩ (some "New") none (some alice)) alice alicePost
    (by decide) (by decide) rfl rfl rfl
  ⟨h.1.2.2.elim fun q hq =>
      ⟨q, hq.1, hq.2.2.1 "New" rfl (by decide), hq.2.2.2.1 (Or.inl rfl)⟩,
   (h.2.1 (Or.inr (by decide))).1, (h.2.1 (Or.inr (by decide))).2.2⟩

/-- C8: author immutability. A post persisted by a successful `POST /` (status
201) carries the id of the acting user as `author` and the user name as
`authorName`; after any sequence of `PUT /:id` requests, with any bodies, any
acting users and of any length, successful or not, the post is still found
under its id with the same `_id`, `author` and `authorName`. -/
theorem author_fixed_at_creation (store : Store) (req : Req) (user : User)
    (hu : req.user = some user) (hok : (routePost store req).1.status = 201) :
    ∃ p, findById (routePost store req).2.posts req.newId = some p ∧
      p._id = req.newId ∧ p.author = user._id ∧ p.authorName = user.username ∧
      ∀ reqs : List Req,
        ∃ q, findById (putAll (routePost store req).2 reqs).posts req.newId = some q ∧
          q._id = p._id ∧ q.author = p.author ∧ q.authorName = p.authorName := by
  unfold routePost at hok ⊢
  rcases createPost_cases store (postValidation req).1 (postValidation req).2 with
    ⟨_, hne⟩ | ⟨title, content, u, _, _, _, hu2, hfresh, hstore⟩
  · exact absurd hok hne
  · have huu : u = user := by
      rw [postValidation_user, hu] at hu2
      exact (Option.some.inj hu2).symm
    subst huu
    have hf : findById (createPost store (postValidation req).1 (postValidation req).2).2.posts
        req.newId = some
          { _id := req.newId, title := title, content := content, author := u._id,
            authorName := u.username, createdAt := req.now, updatedAt := req.now } := by
      rw [hstore]
      exact @findById_append_new store.posts
        { _id := req.newId, title := title, content := content, author := u._id,
          authorName := u.username, createdAt := req.now, updatedAt := req.now } hfresh
    exact ⟨_, hf, rfl, rfl, rfl, fun reqs => putAll_keeps_author reqs _ hf⟩

/-- C8, with `bob` creating a post in `store2` and then two updates: his own,
which succeeds and changes the title, and one by `alice`, which is refused. -/
theorem author_fixed_at_creation_witness :
    (routePost store2 (mkReq ⟨"p0"⟩ (some "Draft") (some "Text") (some bob))).1.status = 201 ∧
    (routePut (routePost store2 (mkReq ⟨"p0"⟩ (some "Draft") (some "Text") (some bob))).2
      (mkReq ⟨"p9"⟩ (some "Final") (some "Text") (some bob))).1.status = 200 ∧
    ∃ p, findById (routePost store2
        (mkReq ⟨"p0"⟩ (some "Draft") (some "Text") (some bob))).2.posts ⟨"p9"⟩ = some p ∧
      p._id = ⟨"p9"⟩ ∧ p.author = bob._id ∧ p.authorName = bob.username ∧
      ∃ q, findById (putAll (routePost store2
            (mkReq ⟨"p0"⟩ (some "Draft") (some "Text") (some bob))).2
          [mkReq ⟨"p9"⟩ (some "Final") (some "Text") (some bob),
           mkReq ⟨"p9"⟩ (some "Other") (some "Text") (some alice)]).posts ⟨"p9"⟩ = some q ∧
        q._id = p._id ∧ q.author = p.author ∧ q.authorName = p.authorName :=
  ⟨by decide, by decide,
   (author_fixed_at_creation store2 (mkReq ⟨"p0"⟩ (some "Draft") (some "Text") (some bob))
      bob rfl (by decide)).elim fun p hp =>
        ⟨p, hp.1, hp.2.1, hp.2.2.1, hp.2.2.2.1, hp.2.2.2.2 _⟩⟩

end BlogAPI
namespace BlogAPI

/-- C9, as the code has it: the length bounds are an invariant of the routes with
`postValidation` when characters are counted as the validator counts them (code
points, variation selectors `U+FE0E` and `U+FE0F` left out). If every stored
post has a title of 1 to 200 such characters and a content of 1 to 5000, the
same holds after any one `POST /` and after any one `PUT /:id`, whatever the
body and the acting user; and a `POST /` whose trimmed title counts 0 or more
than 200, or whose trimmed content counts 0 or more than 5000, answers 400 with
a non-empty list of errors and leaves the store as it was. -/
theorem length_bounds_invariant (store : Store) (req : Req)
    (h : ∀ p ∈ store.posts, WithinBounds p) :
    (∀ p ∈ (routePost store req).2.posts, WithinBounds p) ∧
    (∀ p ∈ (routePut store req).2.posts, WithinBounds p) ∧
    (validatorLength (trim (fieldString req.body.title)) = 0 ∨
        200 < validatorLength (trim (fieldString req.body.title)) ∨
        validatorLength (trim (fieldString req.body.content)) = 0 ∨
        5000 < validatorLength (trim (fieldString req.body.content)) →
      (routePost store req).1.status = 400 ∧
      (∃ e es, (routePost store req).1.errors = some (e :: es)) ∧
      (routePost store req).2 = store) := by
  refine ⟨?_, ?_, ?_⟩
  · unfold routePost
    rcases createPost_cases store (postValidation req).1 (postValidation req).2 with
      ⟨hs, _⟩ | ⟨title, content, u, hv, ht, hc, _, _, hs⟩
    · rw [hs]
      exact h
    · rw [hs]
      have hb := (postValidation_ok_iff req).mp hv
      rw [postValidation_body] at ht hc
      have ht2 : trim (fieldString req.body.title) = title := Option.some.inj ht
      have hc2 : trim (fieldString req.body.content) = content := Option.some.inj hc
      rw [ht2, hc2] at hb
      intro p hp
      rcases List.mem_append.mp hp with hp | hp
      · exact h p hp
      · rw [List.mem_singleton.mp hp]
        exact ⟨hb.1.1, hb.1.2, hb.2.1, hb.2.2⟩
  · unfold routePut
    rcases updatePost_cases store (postValidation req).1 (postValidation req).2 with
      hs | ⟨post, hv, hf, hs⟩
    · rw [hs]
      exact h
    · rw [hs]
      have hb := (postValidation_ok_iff req).mp hv
      intro p hp
      rcases mem_saveDoc hp with hp | hp
      · exact h p hp
      · rw [hp]
        simp only [postValidation_body]
        rw [strOr_some_of_length _ hb.1.1, strOr_some_of_length _ hb.2.1]
        exact ⟨hb.1.1, hb.1.2, hb.2.1, hb.2.2⟩
  · intro hbad
    have hv : (postValidation req).2 ≠ [] := by
      intro hok
      have := (postValidation_ok_iff req).mp hok
      omega
    unfold routePost
    rw [createPost_invalid store _ hv]
    refine ⟨rfl, ?_, rfl⟩
    cases hE : (postValidation req).2 with
    | nil => exact absurd hE hv
    | cons e es => exact ⟨e, es, rfl⟩

/-- C9 amended, on `store2`: its posts are within the bounds, a `POST /` with a title of
white space only is answered with 400 and stores nothing, and a `PUT /:id` by
the author leaves every post within the bounds. -/
theorem length_bounds_invariant_witness :
    (∀ p ∈ store2.posts, WithinBounds p) ∧
    (routePost store2 (mkReq ⟨"p0"⟩ (some "  ") (some "Text") (some bob))).1.status = 400 ∧
    (routePost store2 (mkReq ⟨"p0"⟩ (some "  ") (some "Text") (some bob))).2 = store2 ∧
    (routePut store2 (mkReq ⟨"p2"⟩ (some " Final ") (some "Text") (some bob))).1.status = 200 ∧
    (∀ p ∈ (routePut store2 (mkReq ⟨"p2"⟩ (some " Final ") (some "Text") (some bob))).2.posts,
      WithinBounds p) :=
  ⟨by decide,
   ((length_bounds_invariant store2 (mkReq ⟨"p0"⟩ (some "  ") (some "Text") (some bob))
      (by decide)).2.2 (Or.inl (by decide))).1,
   ((length_bounds_invariant store2 (mkReq ⟨"p0"⟩ (some "  ") (some "Text") (some bob))
      (by decide)).2.2 (Or.inl (by decide))).2.2,
   by decide,
   (length_bounds_invariant store2 (mkReq ⟨"p2"⟩ (some " Final ") (some "Text") (some bob))
      (by decide)).2.1⟩

end BlogAPI
namespace BlogAPI

/-! ## Supporting facts: which parameters give a page below 1, and unique ids -/

theorem numOr_ge_one_iff (n : Option Int) (d : Int) (hd : 1 ≤ d) :
    1 ≤ numOr n d ↔ ∀ v, n = some v → 0 ≤ v := by
  cases n with
  | none => simp [numOr, hd]
  | some v =>
    by_cases hv : v = 0
    · simp [numOr, hv, hd]
    · simp only [numOr, hv, if_false, Option.some.injEq, forall_eq']
      omega

theorem pageOf_ge_one_iff (q : Query) :
    1 ≤ pageOf q ↔ ∀ v, parseInt (queryString q.page) = some v → 0 ≤ v :=
  numOr_ge_one_iff _ 1 (by decide)

theorem limitOf_ge_one_iff (q : Query) :
    1 ≤ limitOf q ↔ ∀ v, parseInt (queryString q.limit) = some v → 0 ≤ v :=
  numOr_ge_one_iff _ 10 (by decide)

theorem pageOf_absent (limit : Option String) : pageOf { page := none, limit := limit } = 1 := by
  show numOr (parseInt "undefined") 1 = 1
  decide

theorem limitOf_absent (page : Option String) :
    limitOf { page := page, limit := none } = 10 := by
  show numOr (parseInt "undefined") 10 = 10
  decide

theorem saveDoc_ids (posts : List Post) (d : Post) :
    (saveDoc posts d).map (fun p => p._id) = posts.map (fun p => p._id) := by
  induction posts with
  | nil => rfl
  | cons q qs ih =>
    by_cases hq : q._id = d._id
    · simp [saveDoc, hq]
    · simp [saveDoc, hq, ih]

theorem uniqueIds_routePut (store : Store) (req : Req) (h : UniqueIds store) :
    UniqueIds (routePut store req).2 := by
  unfold routePut
  rcases updatePost_cases store (postValidation req).1 (postValidation req).2 with
    hs | ⟨post, _, _, hs⟩
  · rw [hs]
    exact h
  · rw [hs]
    unfold UniqueIds at h ⊢
    show (List.map (fun p => p._id) (saveDoc store.posts _)).Nodup
    rw [saveDoc_ids]
    exact h

theorem uniqueIds_routeDelete (store : Store) (req : Req) (h : UniqueIds store) :
    UniqueIds (routeDelete store req).2 := by
  have hsub : ∀ id, (List.map (fun (p : Post) => p._id)
      (findByIdAndDelete store.posts id)).Nodup :=
    fun id => List.Nodup.sublist ((List.eraseP_sublist store.posts).map _) h
  unfold routeDelete deletePost
  split
  · exact h
  · split
    · exact h
    · split
      · exact h
      · exact hsub req.id

theorem uniqueIds_routePost (store : Store) (req : Req) (h : UniqueIds store) :
    UniqueIds (routePost store req).2 := by
  unfold routePost
  rcases createPost_cases store (postValidation req).1 (postValidation req).2 with
    ⟨hs, _⟩ | ⟨title, content, u, _, _, _, _, hfresh, hs⟩
  · rw [hs]
    exact h
  · rw [hs]
    unfold UniqueIds at h ⊢
    simp only [List.map_append, List.map_cons, List.map_nil]
    refine List.Nodup.append h (List.nodup_singleton _) ?_
    intro x hx hx2
    rw [List.mem_singleton] at hx2
    obtain ⟨p, hp, hpx⟩ := List.mem_map.mp hx
    exact findById_none hfresh p hp (hpx.trans hx2)

end BlogAPI

namespace BlogAPI

set_option maxRecDepth 100000 in
/-- C9 as stated fails when every code point counts as a character: the posts of
`store2` have titles of 1 to 200 and contents of 1 to 5000 code points, and a
`POST /` whose title is 200 letters followed by the variation selector `U+FE0F`
(201 code points after trimming, which the validator counts as 200) is answered
with 201, not 400, and a post with a title of 201 code points is stored. -/
theorem selector_title_is_stored_beyond_200_code_points :
    (∀ p ∈ store2.posts, WithinCodePoints p) ∧
    (trim (fieldString (some selectorTitle))).length = 201 ∧
    (routePost store2 (mkReq ⟨"p0"⟩ (some selectorTitle) (some "Text") (some bob))).1.status
      = 201 ∧
    (routePost store2 (mkReq ⟨"p0"⟩ (some selectorTitle) (some "Text") (some bob))).1.status
      ≠ 400 ∧
    (∃ p ∈ (routePost store2
        (mkReq ⟨"p0"⟩ (some selectorTitle) (some "Text") (some bob))).2.posts,
      p.title.length = 201) ∧
    ¬ (∀ p ∈ (routePost store2
        (mkReq ⟨"p0"⟩ (some selectorTitle) (some "Text") (some bob))).2.posts,
      WithinCodePoints p) := by
  decide

end BlogAPI
